import Mathlib

/-!
Verification of the connection-pool lifecycle manager and tool operations of
the mcp-mysql-server repository (src/src/index.ts), via a shallow embedding.

Strings are embedded as Lean `String`/`List Char`; the JavaScript string
operations used by the source (`trim`, `toUpperCase`, `startsWith`) and the
regular expressions of `validateSqlQuery` are translated to executable
scanners over `List Char`.
-/

/-- Whitespace class of JavaScript: the characters matched by the regex
class backslash-s and removed by `String.prototype.trim`. -/
def jsWs (c : Char) : Bool :=
  c = ' ' || c = '\t' || c = '\n' || c = '\r' || c = '\x0b' || c = '\x0c' ||
  c = '\u00A0' || c = '\u1680' || ('\u2000' ≤ c && c ≤ '\u200A') ||
  c = '\u2028' || c = '\u2029' || c = '\u202F' || c = '\u205F' ||
  c = '\u3000' || c = '\uFEFF'

/-- JavaScript `String.prototype.trim` on a character list: drop the
whitespace of `jsWs` from both ends. -/
def jsTrim (l : List Char) : List Char :=
  ((l.dropWhile jsWs).reverse.dropWhile jsWs).reverse

/-- JavaScript `trim` on `String`. -/
def jsTrimStr (s : String) : String :=
  ⟨jsTrim s.data⟩

/-- Case-insensitive prefix test: `prefCI pat l` holds when some prefix of
`l` spells `pat` after uppercasing each character.  This models
`toUpperCase().startsWith(pat)` of the source for an ASCII `pat`. -/
def prefCI : List Char → List Char → Bool
  | [], _ => true
  | _ :: _, [] => false
  | k :: ks, c :: cs => (Char.toUpper c = k) && prefCI ks cs

/-- Continuation-style case-insensitive matcher: match `pat` (given
uppercased) at the head of the input, then run the continuation `p` on the
rest.  Used to embed the regular expressions of `validateSqlQuery`. -/
def matchCI : List Char → (List Char → Bool) → List Char → Bool
  | [], p, l => p l
  | _ :: _, _, [] => false
  | k :: ks, p, c :: cs => (Char.toUpper c = k) && matchCI ks p cs

/-- Regex fragment `\s*` followed by a continuation: try the continuation at
the current position or after dropping any number of whitespace characters
one by one (exactly the backtracking semantics of the regex engine). -/
def skipWsThen (p : List Char → Bool) : List Char → Bool
  | [] => p []
  | c :: cs => p (c :: cs) || (jsWs c && skipWsThen p cs)

/-- Head of the input is a whitespace character: the regex fragment `\s+`
restricted to what a containment test needs (one whitespace character). -/
def wsHead : List Char → Bool
  | [] => false
  | c :: _ => jsWs c

/-- Literal (case-sensitive) prefix test, for the `--` and the
slash-star regex patterns of the source. -/
def litPat : List Char → List Char → Bool
  | [], _ => true
  | _ :: _, [] => false
  | p :: ps, c :: cs => (c = p) && litPat ps cs

/-- Search every suffix of the input for a match of `p`: the containment
semantics of `RegExp.prototype.test`. -/
def anySuffix (p : List Char → Bool) : List Char → Bool
  | [] => p []
  | c :: cs => p (c :: cs) || anySuffix p cs

/-- Keyword DROP as uppercase characters. -/
def dropChars : List Char := ['D', 'R', 'O', 'P']

/-- Keyword DELETE as uppercase characters. -/
def deleteChars : List Char := ['D', 'E', 'L', 'E', 'T', 'E']

/-- Keyword UPDATE as uppercase characters. -/
def updateChars : List Char := ['U', 'P', 'D', 'A', 'T', 'E']

/-- Keyword INSERT as uppercase characters. -/
def insertChars : List Char := ['I', 'N', 'S', 'E', 'R', 'T']

/-- Keyword UNION as uppercase characters. -/
def unionChars : List Char := ['U', 'N', 'I', 'O', 'N']

/-- Keyword SELECT as uppercase characters. -/
def selectChars : List Char := ['S', 'E', 'L', 'E', 'C', 'T']

/-- Token xp_cmdshell as uppercase characters. -/
def xpChars : List Char :=
  ['X', 'P', '_', 'C', 'M', 'D', 'S', 'H', 'E', 'L', 'L']

/-- The two-hyphen comment opener. -/
def dashDashChars : List Char := ['-', '-']

/-- The slash-star comment opener. -/
def slashStarChars : List Char := ['/', '*']

/-- Source regex `;\s*KW\s+` (case-insensitive) tested at one position:
a semicolon, any whitespace, the keyword, then one whitespace character. -/
def semiKwPat (kw : List Char) (b : List Char) : Bool :=
  match b with
  | c :: rest => (c = ';') && skipWsThen (matchCI kw wsHead) rest
  | [] => false

/-- Source regex `UNION\s+SELECT` (case-insensitive) tested at one
position. -/
def unionSelectPat (b : List Char) : Bool :=
  matchCI unionChars (fun r =>
    match r with
    | c :: cs => jsWs c && skipWsThen (matchCI selectChars (fun _ => true)) cs
    | [] => false) b

/-- Source regex `xp_cmdshell` (case-insensitive) tested at one position. -/
def xpPat (b : List Char) : Bool :=
  matchCI xpChars (fun _ => true) b

/-- Disjunction of the eight dangerous patterns of `validateSqlQuery`,
tested at one position of the input. -/
def dangerousAt (b : List Char) : Bool :=
  semiKwPat dropChars b || semiKwPat deleteChars b ||
  semiKwPat updateChars b || semiKwPat insertChars b ||
  unionSelectPat b || litPat dashDashChars b || litPat slashStarChars b ||
  xpPat b

/-- Embedding of `validateSqlQuery` (src/src/index.ts lines 45-59): the
query is valid when none of the eight dangerous regexes matches anywhere. -/
def validateSqlQuery (s : String) : Bool :=
  !(anySuffix dangerousAt s.data)

/-- Embedding of the SELECT gate of `handleQuery` (line 386):
`sql.trim().toUpperCase().startsWith(SELECT)`. -/
def selectGate (s : String) : Bool :=
  prefCI selectChars (jsTrim s.data)

/-!
Data model: error codes and errors of the MCP SDK as used by the source,
tool results, database configuration, and the argument objects of the tool
calls.  JavaScript truthiness on an optional string is embedded by
`truthyStr` (absent and the empty string are falsy).
-/

/-- Error codes of the MCP SDK used by src/src/index.ts. -/
inductive ErrorCode where
  | invalidRequest
  | invalidParams
  | internalError
  | methodNotFound
  deriving DecidableEq, Repr

/-- An McpError value: a code together with a human-readable message. -/
structure McpError where
  code : ErrorCode
  message : String
  deriving DecidableEq, Repr

/-- The textual payload returned by a successful tool operation. -/
structure ToolResult where
  text : String
  deriving DecidableEq, Repr

/-- JavaScript parameter values accepted by the query tool schema. -/
inductive JsVal where
  | str (s : String)
  | num (n : Int)
  | bool (b : Bool)
  | null
  deriving DecidableEq, Repr

/-- The DatabaseConfig interface of the source (lines 17-24). -/
structure DatabaseConfig where
  host : String
  user : String
  password : String
  database : String
  port : Option Int
  socketPath : Option String
  deriving DecidableEq, Repr

/-- JavaScript truthiness of an optional string: `undefined` and the empty
string are falsy, every other string is truthy. -/
def truthyStr : Option String → Bool
  | none => false
  | some s => s ≠ ""

/-- The relevant environment variables read by the constructor
(lines 83-99); the numeric port is taken as already parsed by the
environment collaborator. -/
structure Env where
  host : Option String
  user : Option String
  password : Option String
  database : Option String
  port : Option Int
  socket : Option String
  deriving DecidableEq, Repr

/-- Embedding of the constructor configuration guard (lines 83-99): the
configuration is installed when MYSQL_HOST, MYSQL_USER and MYSQL_DATABASE
are truthy and MYSQL_PASSWORD is defined (possibly empty); the socket path
is added only when truthy. -/
def initConfig (e : Env) : Option DatabaseConfig :=
  if truthyStr e.host && truthyStr e.user && !e.password.isNone &&
      truthyStr e.database then
    some { host := e.host.getD "", user := e.user.getD "",
           password := e.password.getD "", database := e.database.getD "",
           port := some (e.port.getD 3306),
           socketPath := if truthyStr e.socket then e.socket else none }
  else none

/-- The mutable fields of the MySQLServer object that the sequential
handler layer touches.  The pool is embedded as the index of the
construction attempt that created it; `attempts` is instrumentation
counting pool-construction attempts (it also serves as the next pool
identity) and is threaded so that the probe oracle can give each attempt
its own outcome. -/
structure HState where
  config : Option DatabaseConfig
  pool : Option Nat
  isConnected : Bool
  attempts : Nat
  activeConnections : Nat
  deriving DecidableEq, Repr

/-- Outcomes of the external world: `probe k` is the outcome of the ping
test of construction attempt `k` (`none` is success, `some m` a failure
with message `m`), and `exec sql params` the outcome of one pooled
statement execution. -/
structure Oracle where
  probe : Nat → Option String
  exec : String → List JsVal → Except String String

/-- Observable actions of a handler, in execution order: closing a pool,
installing a configuration, starting a pool-construction attempt, and
executing a statement with positional parameters against the pool. -/
inductive SrvAction where
  | poolEnd (p : Nat)
  | installConfig (c : DatabaseConfig)
  | connectAttempt (k : Nat)
  | sqlExec (sql : String) (params : List JsVal)
  deriving DecidableEq, Repr

/-- The configuration-missing error thrown at line 137. -/
def configMissingErr : McpError :=
  ⟨.invalidRequest,
   "Database configuration not set. Use connect_db tool first or set environment variables."⟩

/-- The connect-failure error thrown at line 174, wrapping the underlying
cause message. -/
def connectFailErr (m : String) : McpError :=
  ⟨.internalError, "Failed to connect to database: " ++ m⟩

/-- Sequential embedding of `ensureConnection` (lines 129-186) as seen by
one caller that runs to completion: between top-level calls the in-flight
promise is empty (it is cleared on both settle paths before any awaiter
resumes), so the promise check at line 131 falls through; then the
configuration check (line 136), then either reuse of the existing pool
(line 185) or one construction-and-probe attempt whose failure resets the
pool and connected flag (lines 144-183). -/
def ensureConnectionS (o : Oracle) (s : HState) :
    HState × Except McpError Unit × List SrvAction :=
  match s.config with
  | none => (s, .error configMissingErr, [])
  | some _ =>
    match s.pool with
    | some _ => (s, .ok (), [])
    | none =>
      match o.probe s.attempts with
      | none =>
        ({ s with pool := some s.attempts, attempts := s.attempts + 1,
                  isConnected := true },
         .ok (), [.connectAttempt s.attempts])
      | some m =>
        ({ s with pool := none, isConnected := false,
                  attempts := s.attempts + 1 },
         .error (connectFailErr m), [.connectAttempt s.attempts])

/-- The argument object of a tool call (`args: any` in the source), with
one optional field per property any of the four handlers reads. -/
structure ToolArgs where
  host : Option String := none
  user : Option String := none
  password : Option String := none
  database : Option String := none
  socketPath : Option String := none
  port : Option Int := none
  sql : Option String := none
  params : Option (List JsVal) := none
  table : Option String := none
  deriving DecidableEq, Repr

/-- Embedding of `handleConnectDb` (lines 328-377): validate the required
fields (password checked only against undefined and null, the others by
truthiness), close and null any existing pool, install the new
configuration (port defaulting to 3306 through JavaScript truthiness of
numbers, socket path only when truthy), then run `ensureConnection`,
wrapping its failure in an InternalError. -/
def handleConnectDb (o : Oracle) (s : HState) (args : ToolArgs) :
    HState × Except McpError ToolResult × List SrvAction :=
  if !truthyStr args.host || !truthyStr args.user || args.password.isNone ||
      !truthyStr args.database then
    (s, .error ⟨.invalidParams, "Missing required database configuration parameters"⟩, [])
  else
    let closing : HState × List SrvAction :=
      match s.pool with
      | some p => ({ s with pool := none }, [.poolEnd p])
      | none => (s, [])
    let cfg : DatabaseConfig :=
      { host := args.host.getD "", user := args.user.getD "",
        password := args.password.getD "", database := args.database.getD "",
        port := some (match args.port with
                      | some p => if p = 0 then 3306 else p
                      | none => 3306),
        socketPath := if truthyStr args.socketPath then args.socketPath else none }
    let s2 : HState := { closing.1 with config := some cfg }
    let res := ensureConnectionS o s2
    match res.2.1 with
    | .ok _ =>
      (res.1, .ok ⟨"Successfully connected to database"⟩,
       closing.2 ++ [.installConfig cfg] ++ res.2.2)
    | .error e =>
      (res.1, .error ⟨.internalError, "Failed to connect to database: " ++ e.message⟩,
       closing.2 ++ [.installConfig cfg] ++ res.2.2)

/-- Embedding of `handleQuery` (lines 379-427): ensure the connection,
require a truthy sql argument, require the SELECT prefix on the trimmed
uppercased input, run `validateSqlQuery` on the trimmed input, then execute
the original (untrimmed) sql with the caller parameters defaulting to the
empty list, wrapping an execution failure in an InternalError. -/
def handleQuery (o : Oracle) (s : HState) (args : ToolArgs) :
    HState × Except McpError ToolResult × List SrvAction :=
  let ensured := ensureConnectionS o s
  match ensured.2.1 with
  | .error e => (ensured.1, .error e, ensured.2.2)
  | .ok _ =>
    if !truthyStr args.sql then
      (ensured.1, .error ⟨.invalidParams, "SQL query is required"⟩, ensured.2.2)
    else
      let raw := args.sql.getD ""
      if !selectGate raw then
        (ensured.1, .error ⟨.invalidParams, "Only SELECT queries are allowed with query tool"⟩,
         ensured.2.2)
      else if !validateSqlQuery (jsTrimStr raw) then
        (ensured.1, .error ⟨.invalidParams, "SQL query contains potentially dangerous patterns"⟩,
         ensured.2.2)
      else
        match o.exec raw (args.params.getD []) with
        | .ok rows =>
          (ensured.1, .ok ⟨rows⟩, ensured.2.2 ++ [.sqlExec raw (args.params.getD [])])
        | .error m =>
          (ensured.1, .error ⟨.internalError, "Query execution failed: " ++ m⟩,
           ensured.2.2 ++ [.sqlExec raw (args.params.getD [])])

/-- Embedding of `handleListTables` (lines 429-453). -/
def handleListTables (o : Oracle) (s : HState) :
    HState × Except McpError ToolResult × List SrvAction :=
  let ensured := ensureConnectionS o s
  match ensured.2.1 with
  | .error e => (ensured.1, .error e, ensured.2.2)
  | .ok _ =>
    match o.exec "SHOW TABLES" [] with
    | .ok rows =>
      (ensured.1, .ok ⟨rows⟩, ensured.2.2 ++ [.sqlExec "SHOW TABLES" []])
    | .error m =>
      (ensured.1, .error ⟨.internalError, "Failed to list tables: " ++ m⟩,
       ensured.2.2 ++ [.sqlExec "SHOW TABLES" []])

/-- Embedding of `handleDescribeTable` (lines 455-483): ensure the
connection, require a truthy table argument, then execute the fixed
statement DESCRIBE ?? with the table name as the single escaped-identifier
parameter. -/
def handleDescribeTable (o : Oracle) (s : HState) (args : ToolArgs) :
    HState × Except McpError ToolResult × List SrvAction :=
  let ensured := ensureConnectionS o s
  match ensured.2.1 with
  | .error e => (ensured.1, .error e, ensured.2.2)
  | .ok _ =>
    if !truthyStr args.table then
      (ensured.1, .error ⟨.invalidParams, "Table name is required"⟩, ensured.2.2)
    else
      match o.exec "DESCRIBE ??" [.str (args.table.getD "")] with
      | .ok rows =>
        (ensured.1, .ok ⟨rows⟩,
         ensured.2.2 ++ [.sqlExec "DESCRIBE ??" [.str (args.table.getD "")]])
      | .error m =>
        (ensured.1, .error ⟨.internalError, "Failed to describe table: " ++ m⟩,
         ensured.2.2 ++ [.sqlExec "DESCRIBE ??" [.str (args.table.getD "")]])

/-- The dispatch switch of the CallTool handler (lines 298-317). -/
def dispatchTool (o : Oracle) (s : HState) (name : String) (args : ToolArgs) :
    HState × Except McpError ToolResult × List SrvAction :=
  if name = "connect_db" then handleConnectDb o s args
  else if name = "query" then handleQuery o s args
  else if name = "list_tables" then handleListTables o s
  else if name = "describe_table" then handleDescribeTable o s args
  else (s, .error ⟨.methodNotFound, "Unknown tool: " ++ name⟩, [])

/-- The entry bookkeeping of the CallTool handler (lines 283-296):
increment the active-connections counter, then, when a configuration
exists, the connected flag is false and the tool is not connect_db, attempt
`ensureConnection` discarding its outcome (the failure is only logged). -/
def preDispatchState (o : Oracle) (s : HState) (name : String) :
    HState × List SrvAction :=
  let s0 : HState := { s with activeConnections := s.activeConnections + 1 }
  if s0.config.isSome && !s0.isConnected && !(name = "connect_db") then
    let ensured := ensureConnectionS o s0
    (ensured.1, ensured.2.2)
  else (s0, [])

/-- Embedding of the CallTool request handler (lines 277-325): entry
bookkeeping and opportunistic auto-connect, dispatch by tool name, and the
finally-block decrement of the active-connections counter on every exit
path. -/
def handleCallTool (o : Oracle) (s : HState) (name : String) (args : ToolArgs) :
    HState × Except McpError ToolResult × List SrvAction :=
  let pre := preDispatchState o s name
  let dispatched := dispatchTool o pre.1 name args
  ({ dispatched.1 with activeConnections := dispatched.1.activeConnections - 1 },
   dispatched.2.1, pre.2 ++ dispatched.2.2)
/-!
Concurrent model of `ensureConnection` (lines 129-186).  JavaScript runs
handlers on a single-threaded event loop: code between two await points is
atomic.  The body of `ensureConnection` up to and including the assignment
of `this.connectionPromise` contains no await (the async IIFE runs
synchronously until `getConnection`), so the entry of one caller is one
atomic step; the settling of the creation promise (lines 156-178) resolves
the probe, updates the fields and clears `connectionPromise` before any
awaiting continuation runs, so it is a second atomic step; an awaiting
caller resuming on the settled promise is a third.
-/

deriving instance DecidableEq for Except

/-- Control state of one caller of `ensureConnection`. -/
inductive Phase where
  | pending
  | awaiting (t : Nat)
  | done (r : Except McpError Unit)
  deriving DecidableEq, Repr

/-- State of one initialization token (connection promise). -/
inductive TokenSt where
  | unresolved
  | resolved (r : Except McpError Unit)
  deriving DecidableEq, Repr

/-- Shared state of the concurrent model: the object fields of the server
(config, pool, isConnected, connectionPromise), the token pool indexed by
allocation order, the callers, and `attempts`, an instrumentation counter
of pool-construction attempts started (also serving as pool identity). -/
structure CState where
  config : Option DatabaseConfig
  pool : Option Nat
  isConnected : Bool
  connectionPromise : Option Nat
  attempts : Nat
  tokens : List TokenSt
  callers : List Phase
  deriving DecidableEq, Repr

/-- Scheduler events: a pending caller runs the entry of
`ensureConnection`; the in-flight creation settles with probe outcome
`none` (success) or `some msg` (failure); a caller awaiting a resolved
token resumes. -/
inductive CEvent where
  | enter (i : Nat)
  | settle (failMsg : Option String)
  | resume (i : Nat)
  deriving DecidableEq, Repr

/-- One atomic step of the event loop; `none` when the event is not
enabled.  `enter` follows lines 131-185: an existing connection promise is
awaited; a missing configuration fails immediately; a missing pool starts
a creation (pool assigned, promise installed, the caller awaits it); an
existing pool resolves immediately.  `settle` follows lines 156-178: on
success the connected flag is set and the promise cleared; on failure the
pool is nulled, the flag cleared and the promise cleared, the token
resolving to the wrapped connect error.  `resume` delivers a resolved
token to its awaiter. -/
def cstep (s : CState) : CEvent → Option CState
  | .enter i =>
    match s.callers[i]? with
    | some .pending =>
      match s.connectionPromise with
      | some t => some { s with callers := s.callers.set i (.awaiting t) }
      | none =>
        match s.config with
        | none =>
          some { s with callers := s.callers.set i (.done (.error configMissingErr)) }
        | some _ =>
          match s.pool with
          | none =>
            some { s with
              pool := some s.attempts, attempts := s.attempts + 1,
              tokens := s.tokens ++ [.unresolved],
              connectionPromise := some s.tokens.length,
              callers := s.callers.set i (.awaiting s.tokens.length) }
          | some _ =>
            some { s with callers := s.callers.set i (.done (.ok ())) }
    | _ => none
  | .settle m =>
    match s.connectionPromise with
    | some t =>
      match s.tokens[t]? with
      | some .unresolved =>
        match m with
        | none =>
          some { s with isConnected := true, connectionPromise := none,
                        tokens := s.tokens.set t (.resolved (.ok ())) }
        | some msg =>
          some { s with pool := none, isConnected := false,
                        connectionPromise := none,
                        tokens := s.tokens.set t (.resolved (.error (connectFailErr msg))) }
      | _ => none
    | none => none
  | .resume i =>
    match s.callers[i]? with
    | some (.awaiting t) =>
      match s.tokens[t]? with
      | some (.resolved r) => some { s with callers := s.callers.set i (.done r) }
      | _ => none
    | _ => none

/-- Run a list of events from a state; fails when an event is not
enabled. -/
def crun (s : CState) : List CEvent → Option CState
  | [] => some s
  | e :: es =>
    match cstep s e with
    | some s' => crun s' es
    | none => none

/-- Initial state for `N` callers that need the pool while no pool exists
and the configuration `c` is set. -/
def initC (c : DatabaseConfig) (N : Nat) : CState :=
  { config := some c, pool := none, isConnected := false,
    connectionPromise := none, attempts := 0, tokens := [],
    callers := List.replicate N .pending }
/-!
Specification-side predicates.  The spec and the claims describe the query
guard by containment of textual patterns; these predicates state such
containment directly as existential decompositions of the character list,
independently of the executable scanners above, so that comparing the two
is meaningful.
-/

/-- Every character of the list is whitespace. -/
def WsList (w : List Char) : Prop := ∀ c ∈ w, jsWs c = true

/-- The list `m` spells `pat` up to case (uppercasing `m` gives `pat`). -/
def CiSpelling (m pat : List Char) : Prop := m.map Char.toUpper = pat

/-- The position starts with a semicolon followed (after optional
whitespace) by the keyword, up to case.  This is the claim wording of the
semicolon patterns, with no requirement after the keyword. -/
def SemiKwAt (kw b : List Char) : Prop :=
  ∃ w m r, b = ';' :: (w ++ (m ++ r)) ∧ WsList w ∧ CiSpelling m kw

/-- The position starts with a semicolon, optional whitespace, the keyword
up to case, and then one whitespace character: the semantics of the source
regex `;\s*KW\s+`. -/
def SemiKwWsAt (kw b : List Char) : Prop :=
  ∃ w m c r, b = ';' :: (w ++ (m ++ c :: r)) ∧ WsList w ∧ CiSpelling m kw ∧
    jsWs c = true

/-- The position starts with UNION, whitespace, SELECT, up to case: the
semantics of the source regex `UNION\s+SELECT`. -/
def UnionSelectAt (b : List Char) : Prop :=
  ∃ m c w m2 r, b = m ++ (c :: (w ++ (m2 ++ r))) ∧ CiSpelling m unionChars ∧
    jsWs c = true ∧ WsList w ∧ CiSpelling m2 selectChars

/-- The position starts with the literal pattern `pat`. -/
def LitAt (pat b : List Char) : Prop := ∃ r, b = pat ++ r

/-- The position starts with the keyword up to case. -/
def CiAt (kw b : List Char) : Prop := ∃ m r, b = m ++ r ∧ CiSpelling m kw

/-- The eight dangerous patterns as the claim words them: no whitespace
required after the semicolon keywords. -/
def SpecDangerAt (b : List Char) : Prop :=
  SemiKwAt dropChars b ∨ SemiKwAt deleteChars b ∨ SemiKwAt updateChars b ∨
  SemiKwAt insertChars b ∨ UnionSelectAt b ∨ LitAt dashDashChars b ∨
  LitAt slashStarChars b ∨ CiAt xpChars b

/-- The eight dangerous patterns as the source regexes have them: one
whitespace character required after the semicolon keywords. -/
def AmendedDangerAt (b : List Char) : Prop :=
  SemiKwWsAt dropChars b ∨ SemiKwWsAt deleteChars b ∨ SemiKwWsAt updateChars b ∨
  SemiKwWsAt insertChars b ∨ UnionSelectAt b ∨ LitAt dashDashChars b ∨
  LitAt slashStarChars b ∨ CiAt xpChars b

/-- The input contains a dangerous pattern, claim wording. -/
def SpecDangerous (s : String) : Prop :=
  ∃ a b, s.data = a ++ b ∧ SpecDangerAt b

/-- The input contains a dangerous pattern, source-regex semantics. -/
def AmendedDangerous (s : String) : Prop :=
  ∃ a b, s.data = a ++ b ∧ AmendedDangerAt b

/-- The trimmed input begins with SELECT up to case: the spec wording of
the SELECT-only gate. -/
def StartsWithSelectSpec (s : String) : Prop :=
  ∃ m r, jsTrim s.data = m ++ r ∧ CiSpelling m selectChars

/-!
Invariants of the concurrent model, and concrete fixtures used by witness
theorems.
-/

/-- Core token invariant: the stored connection promise, when present,
always refers to a token that is still unresolved (it is cleared in the
same atomic step that resolves the token). -/
def CInv (s : CState) : Prop :=
  ∀ t, s.connectionPromise = some t → s.tokens[t]? = some TokenSt.unresolved

/-- State shape while only entry steps have run from an initial state: the
system has either not started any construction attempt (all callers
pending) or started exactly one, every non-pending caller awaiting its
token 0, which is unresolved. -/
def EnterInv (c : DatabaseConfig) (s : CState) : Prop :=
  s.config = some c ∧ s.isConnected = false ∧
  ((s.attempts = 0 ∧ s.pool = none ∧ s.connectionPromise = none ∧
      s.tokens = [] ∧
      ∀ (j : Nat) (ph : Phase), s.callers[j]? = some ph → ph = Phase.pending) ∨
   (s.attempts = 1 ∧ s.pool = some 0 ∧ s.connectionPromise = some 0 ∧
      s.tokens = [TokenSt.unresolved] ∧
      ∀ (j : Nat) (ph : Phase), s.callers[j]? = some ph → ph = Phase.pending ∨ ph = Phase.awaiting 0))

/-- State shape once no further entry steps occur: untouched, one attempt
in flight, or one attempt settled with outcome `r`, every caller pending,
awaiting token 0, or finished with `r`. -/
def LateInv (c : DatabaseConfig) (s : CState) : Prop :=
  s.config = some c ∧
  ((s.attempts = 0 ∧ s.connectionPromise = none ∧ s.tokens = [] ∧
      ∀ (j : Nat) (ph : Phase), s.callers[j]? = some ph → ph = Phase.pending) ∨
   (s.attempts = 1 ∧ s.connectionPromise = some 0 ∧
      s.tokens = [TokenSt.unresolved] ∧
      ∀ (j : Nat) (ph : Phase), s.callers[j]? = some ph → ph = Phase.pending ∨ ph = Phase.awaiting 0) ∨
   (∃ r, s.attempts = 1 ∧ s.connectionPromise = none ∧
      s.tokens = [TokenSt.resolved r] ∧
      ∀ (j : Nat) (ph : Phase), s.callers[j]? = some ph →
        ph = Phase.pending ∨ ph = Phase.awaiting 0 ∨ ph = Phase.done r))

/-- A concrete configuration for witness theorems. -/
def cfg0 : DatabaseConfig :=
  { host := "h", user := "u", password := "p", database := "d",
    port := some 3306, socketPath := none }

/-- An oracle whose probes and statement executions all succeed. -/
def oracleOk : Oracle :=
  { probe := fun _ => none, exec := fun _ _ => .ok "[]" }

/-- An oracle whose probes all fail, with a message naming the attempt. -/
def oracleDown : Oracle :=
  { probe := fun k => some ("down" ++ toString k), exec := fun _ _ => .ok "[]" }

/-- A handler-layer state with a configuration and a healthy pool. -/
def readyState : HState :=
  { config := some cfg0, pool := some 0, isConnected := true, attempts := 1,
    activeConnections := 0 }

/-- A handler-layer state with a configuration and no pool yet. -/
def emptyState : HState :=
  { config := some cfg0, pool := none, isConnected := false, attempts := 0,
    activeConnections := 0 }

/-- The final state of the witness run of the concurrent model. -/
def sfA : CState :=
  { config := some cfg0, pool := some 0, isConnected := true,
    connectionPromise := none, attempts := 1,
    tokens := [TokenSt.resolved (.ok ())],
    callers := [Phase.done (.ok ()), Phase.done (.ok ())] }

/-- A concurrent state with one creation in flight and one pending
caller. -/
def sB : CState :=
  { config := some cfg0, pool := some 0, isConnected := false,
    connectionPromise := some 0, attempts := 1,
    tokens := [TokenSt.unresolved],
    callers := [Phase.awaiting 0, Phase.pending] }

/-!
Correctness of the executable scanners with respect to the existential
decompositions.
-/

/-- A suffix search succeeds exactly when some split of the input makes the
pattern match at the split point. -/
theorem anySuffix_iff (p : List Char → Bool) (l : List Char) :
    anySuffix p l = true ↔ ∃ a b, l = a ++ b ∧ p b = true := by
  induction l with
  | nil =>
    simp only [anySuffix]
    constructor
    · intro h; exact ⟨[], [], rfl, h⟩
    · rintro ⟨a, b, heq, hb⟩
      rcases List.append_eq_nil.mp heq.symm with ⟨rfl, rfl⟩
      exact hb
  | cons c cs ih =>
    simp only [anySuffix, Bool.or_eq_true, ih]
    constructor
    · rintro (h | ⟨a, b, rfl, hb⟩)
      · exact ⟨[], c :: cs, rfl, h⟩
      · exact ⟨c :: a, b, rfl, hb⟩
    · rintro ⟨a, b, heq, hb⟩
      cases a with
      | nil =>
        left
        simp only [List.nil_append] at heq
        exact heq ▸ hb
      | cons a0 as =>
        right
        simp only [List.cons_append, List.cons.injEq] at heq
        exact ⟨as, b, heq.2, hb⟩

/-- The whitespace-skipping scanner succeeds exactly when the continuation
matches after some all-whitespace prefix. -/
theorem skipWsThen_iff (p : List Char → Bool) (l : List Char) :
    skipWsThen p l = true ↔
      ∃ w r, l = w ++ r ∧ WsList w ∧ p r = true := by
  induction l with
  | nil =>
    simp only [skipWsThen]
    constructor
    · intro h
      exact ⟨[], [], rfl, fun c hc => absurd hc (List.not_mem_nil c), h⟩
    · rintro ⟨w, r, heq, _, hr⟩
      rcases List.append_eq_nil.mp heq.symm with ⟨rfl, rfl⟩
      exact hr
  | cons c cs ih =>
    simp only [skipWsThen, Bool.or_eq_true, Bool.and_eq_true, ih]
    constructor
    · rintro (h | ⟨hc, w, r, rfl, hw, hr⟩)
      · exact ⟨[], c :: cs, rfl, fun x hx => absurd hx (List.not_mem_nil x), h⟩
      · refine ⟨c :: w, r, rfl, ?_, hr⟩
        intro x hx
        rcases List.mem_cons.mp hx with rfl | hx
        · exact hc
        · exact hw x hx
    · rintro ⟨w, r, heq, hw, hr⟩
      cases w with
      | nil =>
        left
        simp only [List.nil_append] at heq
        exact heq ▸ hr
      | cons w0 ws =>
        right
        simp only [List.cons_append, List.cons.injEq] at heq
        refine ⟨heq.1 ▸ hw w0 (List.mem_cons_self w0 ws), ws, r, heq.2, ?_, hr⟩
        intro x hx
        exact hw x (List.mem_cons_of_mem w0 hx)

/-- The case-insensitive matcher succeeds exactly when some prefix spells
the pattern up to case and the continuation matches the rest. -/
theorem matchCI_iff (pat : List Char) (p : List Char → Bool) (l : List Char) :
    matchCI pat p l = true ↔
      ∃ m r, l = m ++ r ∧ CiSpelling m pat ∧ p r = true := by
  induction pat generalizing l with
  | nil =>
    simp only [matchCI]
    constructor
    · intro h; exact ⟨[], l, rfl, rfl, h⟩
    · rintro ⟨m, r, rfl, hm, hr⟩
      have hnil : m = [] := List.map_eq_nil_iff.mp hm
      subst hnil
      exact hr
  | cons k ks ih =>
    cases l with
    | nil =>
      simp only [matchCI]
      constructor
      · intro h; cases h
      · rintro ⟨m, r, heq, hm, _⟩
        rcases List.append_eq_nil.mp heq.symm with ⟨rfl, rfl⟩
        cases hm
    | cons c cs =>
      simp only [matchCI, Bool.and_eq_true, decide_eq_true_eq, ih]
      constructor
      · rintro ⟨hck, m, r, rfl, hm, hr⟩
        refine ⟨c :: m, r, rfl, ?_, hr⟩
        have hm' : List.map Char.toUpper m = ks := hm
        show List.map Char.toUpper (c :: m) = k :: ks
        rw [List.map_cons, hck, hm']
      · rintro ⟨m, r, heq, hm, hr⟩
        cases m with
        | nil => cases hm
        | cons m0 ms =>
          simp only [List.cons_append, List.cons.injEq] at heq
          obtain ⟨rfl, rfl⟩ := heq
          have hm' : List.map Char.toUpper (c :: ms) = k :: ks := hm
          simp only [List.map_cons, List.cons.injEq] at hm'
          exact ⟨hm'.1, ms, r, rfl, hm'.2, hr⟩

/-- The head-is-whitespace test, as a decomposition. -/
theorem wsHead_iff (l : List Char) :
    wsHead l = true ↔ ∃ c r, l = c :: r ∧ jsWs c = true := by
  cases l with
  | nil =>
    constructor
    · intro h; cases h
    · rintro ⟨c, r, heq, _⟩; cases heq
  | cons c cs =>
    constructor
    · intro h; exact ⟨c, cs, rfl, h⟩
    · rintro ⟨c', r, heq, hc⟩
      cases heq
      exact hc

/-- The literal-prefix test, as a decomposition. -/
theorem litPat_iff (pat l : List Char) :
    litPat pat l = true ↔ LitAt pat l := by
  induction pat generalizing l with
  | nil =>
    constructor
    · intro _; exact ⟨l, rfl⟩
    · intro _; rfl
  | cons k ks ih =>
    cases l with
    | nil =>
      constructor
      · intro h; cases h
      · rintro ⟨r, heq⟩; cases heq
    | cons c cs =>
      simp only [litPat, Bool.and_eq_true, decide_eq_true_eq, ih, LitAt]
      constructor
      · rintro ⟨rfl, r, rfl⟩
        exact ⟨r, rfl⟩
      · rintro ⟨r, heq⟩
        simp only [List.cons_append, List.cons.injEq] at heq
        exact ⟨heq.1, r, heq.2⟩

/-- The case-insensitive prefix test, as a decomposition. -/
theorem prefCI_iff (pat l : List Char) :
    prefCI pat l = true ↔ ∃ m r, l = m ++ r ∧ CiSpelling m pat := by
  induction pat generalizing l with
  | nil =>
    constructor
    · intro _; exact ⟨[], l, rfl, rfl⟩
    · intro _; rfl
  | cons k ks ih =>
    cases l with
    | nil =>
      constructor
      · intro h; cases h
      · rintro ⟨m, r, heq, hm⟩
        rcases List.append_eq_nil.mp heq.symm with ⟨rfl, rfl⟩
        cases hm
    | cons c cs =>
      simp only [prefCI, Bool.and_eq_true, decide_eq_true_eq, ih]
      constructor
      · rintro ⟨hck, m, r, rfl, hm⟩
        refine ⟨c :: m, r, rfl, ?_⟩
        have hm' : List.map Char.toUpper m = ks := hm
        show List.map Char.toUpper (c :: m) = k :: ks
        rw [List.map_cons, hck, hm']
      · rintro ⟨m, r, heq, hm⟩
        cases m with
        | nil => cases hm
        | cons m0 ms =>
          simp only [List.cons_append, List.cons.injEq] at heq
          obtain ⟨rfl, rfl⟩ := heq
          have hm' : List.map Char.toUpper (c :: ms) = k :: ks := hm
          simp only [List.map_cons, List.cons.injEq] at hm'
          exact ⟨hm'.1, ms, r, rfl, hm'.2⟩
/-- The semicolon-keyword scanner matches the source-regex semantics. -/
theorem semiKwPat_iff (kw b : List Char) :
    semiKwPat kw b = true ↔ SemiKwWsAt kw b := by
  cases b with
  | nil =>
    constructor
    · intro h; cases h
    · rintro ⟨w, m, c, r, heq, _⟩; cases heq
  | cons c0 rest =>
    simp only [semiKwPat, Bool.and_eq_true, decide_eq_true_eq, skipWsThen_iff,
      matchCI_iff, wsHead_iff]
    constructor
    · rintro ⟨rfl, w, r1, rfl, hw, m, r2, rfl, hm, ch, r3, rfl, hch⟩
      exact ⟨w, m, ch, r3, rfl, hw, hm, hch⟩
    · rintro ⟨w, m, ch, r3, heq, hw, hm, hch⟩
      cases heq
      exact ⟨rfl, w, m ++ ch :: r3, rfl, hw, m, ch :: r3, rfl, hm, ch, r3, rfl, hch⟩

/-- The union-select scanner matches the source-regex semantics. -/
theorem unionSelectPat_iff (b : List Char) :
    unionSelectPat b = true ↔ UnionSelectAt b := by
  simp only [unionSelectPat, matchCI_iff]
  constructor
  · rintro ⟨m, r, rfl, hm, hk⟩
    cases r with
    | nil => cases hk
    | cons c cs =>
      simp only [Bool.and_eq_true, skipWsThen_iff, matchCI_iff] at hk
      obtain ⟨hc, w, r1, rfl, hw, m2, r2, rfl, hm2, _⟩ := hk
      exact ⟨m, c, w, m2, r2, rfl, hm, hc, hw, hm2⟩
  · rintro ⟨m, c, w, m2, r, rfl, hm, hc, hw, hm2⟩
    refine ⟨m, c :: (w ++ (m2 ++ r)), rfl, hm, ?_⟩
    show (jsWs c && skipWsThen (matchCI selectChars (fun _ => true)) (w ++ (m2 ++ r))) = true
    simp only [Bool.and_eq_true, skipWsThen_iff, matchCI_iff]
    exact ⟨hc, w, m2 ++ r, rfl, hw, m2, r, rfl, hm2, trivial⟩

/-- The xp_cmdshell scanner matches case-insensitive containment. -/
theorem xpPat_iff (b : List Char) : xpPat b = true ↔ CiAt xpChars b := by
  simp only [xpPat, matchCI_iff, CiAt]
  constructor
  · rintro ⟨m, r, rfl, hm, _⟩; exact ⟨m, r, rfl, hm⟩
  · rintro ⟨m, r, rfl, hm⟩; exact ⟨m, r, rfl, hm, trivial⟩

/-- The positional disjunction of the source scanners is the positional
disjunction of the regex-semantics predicates. -/
theorem dangerousAt_iff (b : List Char) :
    dangerousAt b = true ↔ AmendedDangerAt b := by
  simp only [dangerousAt, Bool.or_eq_true, semiKwPat_iff, unionSelectPat_iff,
    litPat_iff, xpPat_iff, AmendedDangerAt, or_assoc]

/-- The query guard rejects exactly the inputs containing one of the eight
regex patterns, stated by decomposition. -/
theorem validateSqlQuery_false_iff (s : String) :
    validateSqlQuery s = false ↔ AmendedDangerous s := by
  have h1 : validateSqlQuery s = false ↔ anySuffix dangerousAt s.data = true := by
    simp [validateSqlQuery]
  rw [h1, anySuffix_iff]
  unfold AmendedDangerous
  exact exists_congr fun a => exists_congr fun b =>
    and_congr_right fun _ => dangerousAt_iff b

/-- The SELECT gate succeeds exactly when the trimmed input begins with
SELECT up to case. -/
theorem selectGate_iff (s : String) :
    selectGate s = true ↔ StartsWithSelectSpec s := by
  simp only [selectGate, prefCI_iff, StartsWithSelectSpec]
/-!
Lemmas about the concurrent model.
-/

/-- Updating one position preserves a property that holds at every
position, provided the new element has it. -/
theorem forall_getElem?_set {α : Type} {P : α → Prop} {l : List α} {i : Nat}
    {a : α} (hl : ∀ (j : Nat) (b : α), l[j]? = some b → P b) (ha : P a) :
    ∀ (j : Nat) (b : α), (l.set i a)[j]? = some b → P b := by
  intro j b h
  rw [List.getElem?_set] at h
  by_cases hij : i = j
  · rw [if_pos hij] at h
    by_cases hlt : i < l.length
    · rw [if_pos hlt] at h
      cases h
      exact ha
    · rw [if_neg hlt] at h
      cases h
  · rw [if_neg hij] at h
    exact hl j b h

/-- While a connection promise is stored, no step starts a new
construction attempt, and an entering caller ends up awaiting exactly the
stored token. -/
theorem cstep_inflight {s s' : CState} {t : Nat} {e : CEvent}
    (hcp : s.connectionPromise = some t) (h : cstep s e = some s') :
    s'.attempts = s.attempts ∧
      ∀ i, e = CEvent.enter i →
        s'.callers = s.callers.set i (Phase.awaiting t) := by
  cases e with
  | enter i =>
    cases hci : s.callers[i]? with
    | none => simp only [cstep, hci] at h; cases h
    | some ph =>
      cases ph with
      | pending =>
        simp only [cstep, hci, hcp] at h
        cases h
        refine ⟨rfl, fun j hj => ?_⟩
        cases hj
        rfl
      | awaiting u => simp only [cstep, hci] at h; cases h
      | done r => simp only [cstep, hci] at h; cases h
  | settle m =>
    cases ht : s.tokens[t]? with
    | none => simp only [cstep, hcp, ht] at h; cases h
    | some ts =>
      cases ts with
      | unresolved =>
        cases m with
        | none =>
          simp only [cstep, hcp, ht] at h
          cases h
          exact ⟨rfl, fun j hj => by cases hj⟩
        | some msg =>
          simp only [cstep, hcp, ht] at h
          cases h
          exact ⟨rfl, fun j hj => by cases hj⟩
      | resolved r => simp only [cstep, hcp, ht] at h; cases h
  | resume i =>
    cases hci : s.callers[i]? with
    | none => simp only [cstep, hci] at h; cases h
    | some ph =>
      cases ph with
      | pending => simp only [cstep, hci] at h; cases h
      | awaiting u =>
        cases ht : s.tokens[u]? with
        | none => simp only [cstep, hci, ht] at h; cases h
        | some ts =>
          cases ts with
          | unresolved => simp only [cstep, hci, ht] at h; cases h
          | resolved r =>
            simp only [cstep, hci, ht] at h
            cases h
            exact ⟨rfl, fun j hj => by cases hj⟩
      | done r => simp only [cstep, hci] at h; cases h

/-- The initial state satisfies the token invariant. -/
theorem cinv_init (c : DatabaseConfig) (N : Nat) : CInv (initC c N) := by
  intro t h
  cases h

/-- One step preserves the token invariant. -/
theorem cinv_step {s s' : CState} {e : CEvent} (hinv : CInv s)
    (h : cstep s e = some s') : CInv s' := by
  cases e with
  | enter i =>
    cases hci : s.callers[i]? with
    | none => simp only [cstep, hci] at h; cases h
    | some ph =>
      cases ph with
      | pending =>
        cases hcp : s.connectionPromise with
        | some t =>
          simp only [cstep, hci, hcp] at h
          cases h
          intro u hu
          cases hu
          exact hinv t hcp
        | none =>
          cases hcfg : s.config with
          | none =>
            simp only [cstep, hci, hcp, hcfg] at h
            cases h
            intro u hu
            cases hu
          | some cc =>
            cases hpool : s.pool with
            | none =>
              simp only [cstep, hci, hcp, hcfg, hpool] at h
              cases h
              intro u hu
              cases hu
              exact List.getElem?_concat_length s.tokens TokenSt.unresolved
            | some p =>
              simp only [cstep, hci, hcp, hcfg, hpool] at h
              cases h
              intro u hu
              cases hu
      | awaiting t => simp only [cstep, hci] at h; cases h
      | done r => simp only [cstep, hci] at h; cases h
  | settle m =>
    cases hcp : s.connectionPromise with
    | none => simp only [cstep, hcp] at h; cases h
    | some t =>
      cases ht : s.tokens[t]? with
      | none => simp only [cstep, hcp, ht] at h; cases h
      | some ts =>
        cases ts with
        | unresolved =>
          cases m with
          | none =>
            simp only [cstep, hcp, ht] at h
            cases h
            intro u hu
            cases hu
          | some msg =>
            simp only [cstep, hcp, ht] at h
            cases h
            intro u hu
            cases hu
        | resolved r => simp only [cstep, hcp, ht] at h; cases h
  | resume i =>
    cases hci : s.callers[i]? with
    | none => simp only [cstep, hci] at h; cases h
    | some ph =>
      cases ph with
      | pending => simp only [cstep, hci] at h; cases h
      | awaiting u =>
        cases ht : s.tokens[u]? with
        | none => simp only [cstep, hci, ht] at h; cases h
        | some ts =>
          cases ts with
          | unresolved => simp only [cstep, hci, ht] at h; cases h
          | resolved r =>
            simp only [cstep, hci, ht] at h
            cases h
            intro v hv
            exact hinv v hv
      | done r => simp only [cstep, hci] at h; cases h

/-- A run preserves the token invariant. -/
theorem cinv_run {s s' : CState} {es : List CEvent} (hinv : CInv s)
    (h : crun s es = some s') : CInv s' := by
  induction es generalizing s with
  | nil => cases h; exact hinv
  | cons e es ih =>
    simp only [crun] at h
    cases hc : cstep s e with
    | none => rw [hc] at h; cases h
    | some s1 =>
      rw [hc] at h
      exact ih (cinv_step hinv hc) h
/-- The initial state satisfies the entry-phase invariant. -/
theorem enterInv_init (c : DatabaseConfig) (N : Nat) :
    EnterInv c (initC c N) := by
  refine ⟨rfl, rfl, Or.inl ⟨rfl, rfl, rfl, rfl, ?_⟩⟩
  intro j ph h
  simp only [initC] at h
  rw [List.getElem?_replicate] at h
  split at h
  · cases h; rfl
  · cases h

/-- An entry step preserves the entry-phase invariant. -/
theorem enterInv_step {c : DatabaseConfig} {s s' : CState} {i : Nat}
    (hinv : EnterInv c s) (h : cstep s (CEvent.enter i) = some s') :
    EnterInv c s' := by
  obtain ⟨hcfg, hic, hz | ha⟩ := hinv
  · obtain ⟨hat, hpool, hcp, htok, hall⟩ := hz
    cases hci : s.callers[i]? with
    | none => simp only [cstep, hci] at h; cases h
    | some ph =>
      have hph := hall i ph hci
      subst hph
      simp only [cstep, hci, hcp, hcfg, hpool] at h
      cases h
      refine ⟨rfl, hic, Or.inr ⟨?_, ?_, ?_, ?_, ?_⟩⟩
      · simp [hat]
      · simp [hat]
      · simp [htok]
      · simp [htok]
      · simp only [htok, List.length_nil]
        exact forall_getElem?_set (fun j b hb => Or.inl (hall j b hb)) (Or.inr rfl)
  · obtain ⟨hat, hpool, hcp, htok, hall⟩ := ha
    cases hci : s.callers[i]? with
    | none => simp only [cstep, hci] at h; cases h
    | some ph =>
      rcases hall i ph hci with rfl | rfl
      · simp only [cstep, hci, hcp] at h
        cases h
        refine ⟨hcfg, hic, Or.inr ⟨hat, hpool, rfl, htok, ?_⟩⟩
        exact forall_getElem?_set hall (Or.inr rfl)
      · simp only [cstep, hci] at h
        cases h

/-- A run of entry steps preserves the entry-phase invariant. -/
theorem enterInv_run {c : DatabaseConfig} {s s' : CState} {es : List CEvent}
    (hes : ∀ e ∈ es, ∃ i, e = CEvent.enter i)
    (hrun : crun s es = some s') (hinv : EnterInv c s) : EnterInv c s' := by
  induction es generalizing s with
  | nil => cases hrun; exact hinv
  | cons e es ih =>
    simp only [crun] at hrun
    cases hc : cstep s e with
    | none => rw [hc] at hrun; cases hrun
    | some s1 =>
      rw [hc] at hrun
      obtain ⟨i, rfl⟩ := hes e (List.mem_cons_self e es)
      exact ih (fun e' he' => hes e' (List.mem_cons_of_mem _ he')) hrun
        (enterInv_step hinv hc)

/-- The entry-phase invariant implies the late-phase invariant. -/
theorem enterInv_lateInv {c : DatabaseConfig} {s : CState}
    (h : EnterInv c s) : LateInv c s := by
  obtain ⟨hcfg, hic, hz | ha⟩ := h
  · exact ⟨hcfg, Or.inl ⟨hz.1, hz.2.2.1, hz.2.2.2.1, hz.2.2.2.2⟩⟩
  · exact ⟨hcfg, Or.inr (Or.inl ⟨ha.1, ha.2.2.1, ha.2.2.2.1, ha.2.2.2.2⟩)⟩

/-- A non-entry step preserves the late-phase invariant. -/
theorem lateInv_step {c : DatabaseConfig} {s s' : CState} {e : CEvent}
    (hne : ∀ i, e ≠ CEvent.enter i) (hinv : LateInv c s)
    (h : cstep s e = some s') : LateInv c s' := by
  cases e with
  | enter i => exact absurd rfl (hne i)
  | settle m =>
    obtain ⟨hcfg, hz | ha | hb⟩ := hinv
    · obtain ⟨hat, hcp, htok, hall⟩ := hz
      simp only [cstep, hcp] at h
      cases h
    · obtain ⟨hat, hcp, htok, hall⟩ := ha
      have ht0 : s.tokens[0]? = some TokenSt.unresolved := by rw [htok]; rfl
      cases m with
      | none =>
        simp only [cstep, hcp, ht0] at h
        cases h
        refine ⟨hcfg, Or.inr (Or.inr ⟨.ok (), hat, rfl, ?_, ?_⟩)⟩
        · rw [htok]; rfl
        · intro j ph hj
          rcases hall j ph hj with rfl | rfl
          · exact Or.inl rfl
          · exact Or.inr (Or.inl rfl)
      | some msg =>
        simp only [cstep, hcp, ht0] at h
        cases h
        refine ⟨hcfg, Or.inr (Or.inr ⟨.error (connectFailErr msg), hat, rfl, ?_, ?_⟩)⟩
        · rw [htok]; rfl
        · intro j ph hj
          rcases hall j ph hj with rfl | rfl
          · exact Or.inl rfl
          · exact Or.inr (Or.inl rfl)
    · obtain ⟨r, hat, hcp, htok, hall⟩ := hb
      simp only [cstep, hcp] at h
      cases h
  | resume i =>
    obtain ⟨hcfg, hz | ha | hb⟩ := hinv
    · obtain ⟨hat, hcp, htok, hall⟩ := hz
      cases hci : s.callers[i]? with
      | none => simp only [cstep, hci] at h; cases h
      | some ph =>
        have := hall i ph hci
        subst this
        simp only [cstep, hci] at h
        cases h
    · obtain ⟨hat, hcp, htok, hall⟩ := ha
      cases hci : s.callers[i]? with
      | none => simp only [cstep, hci] at h; cases h
      | some ph =>
        rcases hall i ph hci with rfl | rfl
        · simp only [cstep, hci] at h; cases h
        · have ht0 : s.tokens[0]? = some TokenSt.unresolved := by rw [htok]; rfl
          simp only [cstep, hci, ht0] at h
          cases h
    · obtain ⟨r, hat, hcp, htok, hall⟩ := hb
      cases hci : s.callers[i]? with
      | none => simp only [cstep, hci] at h; cases h
      | some ph =>
        rcases hall i ph hci with rfl | rfl | rfl
        · simp only [cstep, hci] at h; cases h
        · have ht0 : s.tokens[0]? = some (TokenSt.resolved r) := by rw [htok]; rfl
          simp only [cstep, hci, ht0] at h
          cases h
          refine ⟨hcfg, Or.inr (Or.inr ⟨r, hat, hcp, htok, ?_⟩)⟩
          exact forall_getElem?_set hall (Or.inr (Or.inr rfl))
        · simp only [cstep, hci] at h; cases h

/-- A run of non-entry steps preserves the late-phase invariant. -/
theorem lateInv_run {c : DatabaseConfig} {s s' : CState} {es : List CEvent}
    (hes : ∀ e ∈ es, ∀ i, e ≠ CEvent.enter i)
    (hrun : crun s es = some s') (hinv : LateInv c s) : LateInv c s' := by
  induction es generalizing s with
  | nil => cases hrun; exact hinv
  | cons e es ih =>
    simp only [crun] at hrun
    cases hc : cstep s e with
    | none => rw [hc] at hrun; cases hrun
    | some s1 =>
      rw [hc] at hrun
      exact ih (fun e' he' => hes e' (List.mem_cons_of_mem _ he')) hrun
        (lateInv_step (hes e (List.mem_cons_self e es)) hinv hc)

/-- Running a concatenation is running the parts in sequence. -/
theorem crun_append {s : CState} {es1 es2 : List CEvent} :
    crun s (es1 ++ es2) = (crun s es1).bind (fun s1 => crun s1 es2) := by
  induction es1 generalizing s with
  | nil => rfl
  | cons e es ih =>
    simp only [List.cons_append, crun]
    cases hc : cstep s e with
    | none => rfl
    | some s1 => exact ih

/-- Any run in which every entry precedes every non-entry event, started
from an initial state with a configuration and no pool, performs exactly
one construction attempt, and every caller that finishes observes that
attempt's outcome. -/
theorem singleFlightRun {c : DatabaseConfig} {N : Nat}
    {es1 es2 : List CEvent} {sf : CState}
    (hN : 0 < N)
    (hrun : crun (initC c N) (es1 ++ es2) = some sf)
    (h1 : ∀ e ∈ es1, ∃ i, e = CEvent.enter i)
    (h2 : ∀ e ∈ es2, ∀ i, e ≠ CEvent.enter i)
    (hdone : ∀ i, i < N → ∃ r, sf.callers[i]? = some (Phase.done r)) :
    sf.attempts = 1 ∧
      ∃ r, ∀ i, i < N → sf.callers[i]? = some (Phase.done r) := by
  rw [crun_append] at hrun
  cases hs1 : crun (initC c N) es1 with
  | none => rw [hs1] at hrun; cases hrun
  | some s1 =>
    rw [hs1] at hrun
    have hrun2 : crun s1 es2 = some sf := hrun
    have hE : EnterInv c s1 := enterInv_run h1 hs1 (enterInv_init c N)
    have hL : LateInv c sf := lateInv_run h2 hrun2 (enterInv_lateInv hE)
    obtain ⟨hcfg, hz | ha | hb⟩ := hL
    · obtain ⟨hat, hcp, htok, hall⟩ := hz
      obtain ⟨r0, hc0⟩ := hdone 0 hN
      have := hall 0 _ hc0
      cases this
    · obtain ⟨hat, hcp, htok, hall⟩ := ha
      obtain ⟨r0, hc0⟩ := hdone 0 hN
      rcases hall 0 _ hc0 with hh | hh
      · cases hh
      · cases hh
    · obtain ⟨r, hat, hcp, htok, hall⟩ := hb
      refine ⟨hat, r, fun i hi => ?_⟩
      obtain ⟨ri, hci⟩ := hdone i hi
      rcases hall i _ hci with hh | hh | hh
      · cases hh
      · cases hh
      · cases hh
        exact hci
/-- C1: Single-flight pool creation.  Part one: in any run in which all N
concurrent callers enter while the creation is unresolved (every entry
precedes every non-entry event) and all finish, exactly one
pool-construction attempt is started and every caller observes its
outcome.  Part two: while the in-flight initialization token
(connectionPromise) is non-empty, no step starts a second creation and
every entering caller awaits that same token.  Part three: a resolved
token is never the stored token, so the token is cleared on both settle
paths before any awaiting caller proceeds. -/
theorem single_flight_pool_creation :
    (∀ (c : DatabaseConfig) (N : Nat) (es1 es2 : List CEvent) (sf : CState),
      0 < N →
      crun (initC c N) (es1 ++ es2) = some sf →
      (∀ e ∈ es1, ∃ i, e = CEvent.enter i) →
      (∀ e ∈ es2, ∀ i, e ≠ CEvent.enter i) →
      (∀ i, i < N → ∃ r, sf.callers[i]? = some (Phase.done r)) →
      sf.attempts = 1 ∧
        ∃ r, ∀ i, i < N → sf.callers[i]? = some (Phase.done r)) ∧
    (∀ (s s' : CState) (t : Nat) (e : CEvent),
      s.connectionPromise = some t →
      cstep s e = some s' →
      s'.attempts = s.attempts ∧
        ∀ i, e = CEvent.enter i →
          s'.callers = s.callers.set i (Phase.awaiting t)) ∧
    (∀ (c : DatabaseConfig) (N : Nat) (es : List CEvent) (s : CState)
        (t : Nat) (r : Except McpError Unit),
      crun (initC c N) es = some s →
      s.tokens[t]? = some (TokenSt.resolved r) →
      s.connectionPromise ≠ some t) := by
  refine ⟨?_, ?_, ?_⟩
  · intro c N es1 es2 sf hN hrun h1 h2 hdone
    exact singleFlightRun hN hrun h1 h2 hdone
  · intro s s' t e hcp h
    exact cstep_inflight hcp h
  · intro c N es s t r hrun ht hcp
    have hinv := cinv_run (cinv_init c N) hrun t hcp
    rw [ht] at hinv
    cases hinv

/-- Witness for C1: a concrete two-caller run with both entries before the
successful settle performs one attempt and both callers finish with its
outcome; a concrete entering caller while the token is stored leaves the
attempt count unchanged; and in the final state of that run the resolved
token 0 is not the stored promise. -/
theorem single_flight_pool_creation_witness :
    (sfA.attempts = 1 ∧ ∃ r, ∀ i, i < 2 → sfA.callers[i]? = some (Phase.done r)) ∧
    ({ sB with callers := [Phase.awaiting 0, Phase.awaiting 0] } : CState).attempts
        = sB.attempts ∧
    sfA.connectionPromise ≠ some 0 := by
  refine ⟨?_, ?_, ?_⟩
  · exact single_flight_pool_creation.1 cfg0 2
      [CEvent.enter 0, CEvent.enter 1]
      [CEvent.settle none, CEvent.resume 0, CEvent.resume 1] sfA
      (by decide) (by decide)
      (by
        intro e he
        simp only [List.mem_cons, List.not_mem_nil, or_false] at he
        rcases he with rfl | rfl
        · exact ⟨0, rfl⟩
        · exact ⟨1, rfl⟩)
      (by
        intro e he i
        simp only [List.mem_cons, List.not_mem_nil, or_false] at he
        rcases he with rfl | rfl | rfl <;> exact fun hx => CEvent.noConfusion hx)
      (by
        intro i hi
        match i, hi with
        | 0, _ => exact ⟨.ok (), by decide⟩
        | 1, _ => exact ⟨.ok (), by decide⟩)
  · exact (single_flight_pool_creation.2.1 sB
      { sB with callers := [Phase.awaiting 0, Phase.awaiting 0] } 0
      (CEvent.enter 1) (by decide) (by decide)).1
  · exact single_flight_pool_creation.2.2 cfg0 2
      ([CEvent.enter 0, CEvent.enter 1] ++
        [CEvent.settle none, CEvent.resume 0, CEvent.resume 1]) sfA 0 (.ok ())
      (by decide) (by decide)

/-- C2: No permanent-failure lockout.  When the in-flight creation settles
with a failure, the pool reference is null, the connected flag false and
the initialization token null, the token resolves to an InternalError
wrapping the underlying cause, and a subsequent entry by any pending
caller with the configuration still set starts the construction algorithm
from scratch (a fresh attempt with a fresh token and pool). -/
theorem connect_failure_resets :
    ∀ (s : CState) (t : Nat) (msg : String) (c : DatabaseConfig) (i : Nat),
      s.connectionPromise = some t →
      s.tokens[t]? = some TokenSt.unresolved →
      s.config = some c →
      s.callers[i]? = some Phase.pending →
      ∃ s', cstep s (CEvent.settle (some msg)) = some s' ∧
        s'.pool = none ∧ s'.isConnected = false ∧
        s'.connectionPromise = none ∧
        s'.tokens[t]? = some (TokenSt.resolved (.error (connectFailErr msg))) ∧
        (connectFailErr msg).code = ErrorCode.internalError ∧
        (connectFailErr msg).message = "Failed to connect to database: " ++ msg ∧
        ∃ s'', cstep s' (CEvent.enter i) = some s'' ∧
          s''.attempts = s'.attempts + 1 ∧
          s''.connectionPromise = some s'.tokens.length ∧
          s''.pool = some s'.attempts := by
  intro s t msg c i hcp ht hcfg hci
  have hlt : t < s.tokens.length := by
    by_contra hle
    rw [List.getElem?_eq_none (Nat.le_of_not_lt hle)] at ht
    cases ht
  have hstep : cstep s (CEvent.settle (some msg)) = some
      { s with pool := none, isConnected := false, connectionPromise := none,
               tokens := s.tokens.set t
                 (TokenSt.resolved (.error (connectFailErr msg))) } := by
    simp only [cstep, hcp, ht]
  refine ⟨_, hstep, rfl, rfl, rfl, ?_, rfl, rfl, ?_⟩
  · exact List.getElem?_set_self hlt
  · have hstep2 : cstep
        ({ s with pool := none, isConnected := false, connectionPromise := none,
                  tokens := s.tokens.set t
                    (TokenSt.resolved (.error (connectFailErr msg))) } : CState)
        (CEvent.enter i) = some
        { s with pool := some s.attempts, isConnected := false,
                 connectionPromise := some (s.tokens.set t
                   (TokenSt.resolved (.error (connectFailErr msg)))).length,
                 attempts := s.attempts + 1,
                 tokens := s.tokens.set t
                     (TokenSt.resolved (.error (connectFailErr msg))) ++
                   [TokenSt.unresolved],
                 callers := s.callers.set i (Phase.awaiting (s.tokens.set t
                   (TokenSt.resolved (.error (connectFailErr msg)))).length) } := by
      simp only [cstep, hci, hcfg]
    exact ⟨_, hstep2, rfl, rfl, rfl⟩

/-- Witness for C2: the concrete in-flight state sB settling with failure
message boom resets all three fields and lets the pending caller 1 start a
fresh attempt. -/
theorem connect_failure_resets_witness :
    ∃ s', cstep sB (CEvent.settle (some "boom")) = some s' ∧
      s'.pool = none ∧ s'.isConnected = false ∧
      s'.connectionPromise = none ∧
      s'.tokens[0]? = some (TokenSt.resolved (.error (connectFailErr "boom"))) ∧
      (connectFailErr "boom").code = ErrorCode.internalError ∧
      (connectFailErr "boom").message = "Failed to connect to database: " ++ "boom" ∧
      ∃ s'', cstep s' (CEvent.enter 1) = some s'' ∧
        s''.attempts = s'.attempts + 1 ∧
        s''.connectionPromise = some s'.tokens.length ∧
        s''.pool = some s'.attempts :=
  connect_failure_resets sB 0 "boom" cfg0 1 (by decide) (by decide) (by decide)
    (by decide)
/-!
Handler-layer lemmas: no handler touches the active-connections counter.
-/

/-- The pool-ensuring routine does not touch the counter. -/
theorem ensureConnectionS_counter (o : Oracle) (s : HState) :
    (ensureConnectionS o s).1.activeConnections = s.activeConnections := by
  cases hc : s.config with
  | none => simp [ensureConnectionS, hc]
  | some c =>
    cases hp : s.pool with
    | some p => simp [ensureConnectionS, hc, hp]
    | none =>
      cases ho : o.probe s.attempts with
      | none => simp [ensureConnectionS, hc, hp, ho]
      | some m => simp [ensureConnectionS, hc, hp, ho]

/-- The connect_db handler does not touch the counter. -/
theorem handleConnectDb_counter (o : Oracle) (s : HState) (args : ToolArgs) :
    (handleConnectDb o s args).1.activeConnections = s.activeConnections := by
  simp only [handleConnectDb]
  split
  · rfl
  · cases hp : s.pool with
    | some p =>
      simp only [hp]
      split
      · exact ensureConnectionS_counter o _
      · exact ensureConnectionS_counter o _
    | none =>
      simp only [hp]
      split
      · exact ensureConnectionS_counter o _
      · exact ensureConnectionS_counter o _

/-- The query handler does not touch the counter. -/
theorem handleQuery_counter (o : Oracle) (s : HState) (args : ToolArgs) :
    (handleQuery o s args).1.activeConnections = s.activeConnections := by
  simp only [handleQuery]
  have h := ensureConnectionS_counter o s
  split
  · exact h
  · split
    · exact h
    · split
      · exact h
      · split
        · exact h
        · split
          · exact h
          · exact h

/-- The list_tables handler does not touch the counter. -/
theorem handleListTables_counter (o : Oracle) (s : HState) :
    (handleListTables o s).1.activeConnections = s.activeConnections := by
  simp only [handleListTables]
  have h := ensureConnectionS_counter o s
  split
  · exact h
  · split
    · exact h
    · exact h

/-- The describe_table handler does not touch the counter. -/
theorem handleDescribeTable_counter (o : Oracle) (s : HState) (args : ToolArgs) :
    (handleDescribeTable o s args).1.activeConnections = s.activeConnections := by
  simp only [handleDescribeTable]
  have h := ensureConnectionS_counter o s
  split
  · exact h
  · split
    · exact h
    · split
      · exact h
      · exact h

/-- The dispatch switch does not touch the counter. -/
theorem dispatchTool_counter (o : Oracle) (s : HState) (name : String)
    (args : ToolArgs) :
    (dispatchTool o s name args).1.activeConnections = s.activeConnections := by
  simp only [dispatchTool]
  split
  · exact handleConnectDb_counter o s args
  · split
    · exact handleQuery_counter o s args
    · split
      · exact handleListTables_counter o s
      · split
        · exact handleDescribeTable_counter o s args
        · rfl

/-- C3: Request-counter bookkeeping.  For every inbound tool call
(including InvalidParams failures, unknown tool names, connect failures
and execution failures, over all oracles and argument objects), the
active-connections counter is incremented exactly once on entry (the
state every dispatch runs in carries the pre-call value plus one) and the
counter returns to its pre-call value after the call completes on every
exit path. -/
theorem request_counter_bookkeeping :
    ∀ (o : Oracle) (s : HState) (name : String) (args : ToolArgs),
      (handleCallTool o s name args).1.activeConnections = s.activeConnections ∧
      (preDispatchState o s name).1.activeConnections
        = s.activeConnections + 1 := by
  intro o s name args
  have hpre : (preDispatchState o s name).1.activeConnections
      = s.activeConnections + 1 := by
    simp only [preDispatchState]
    split
    · exact ensureConnectionS_counter o _
    · rfl
  refine ⟨?_, hpre⟩
  simp only [handleCallTool]
  rw [dispatchTool_counter, hpre]
  exact Nat.succ_sub_one s.activeConnections
/-- A string whose trimmed form starts with a character that does not
uppercase to S does not begin with SELECT in the sense of the spec. -/
theorem not_select_of_head {s : String} {c : Char} {l : List Char}
    (h : jsTrim s.data = c :: l) (hc : Char.toUpper c ≠ 'S') :
    ¬ StartsWithSelectSpec s := by
  rintro ⟨m, r, heq, hm⟩
  cases m with
  | nil => cases hm
  | cons m0 ms =>
    rw [heq] at h
    simp only [List.cons_append, List.cons.injEq] at h
    have hm' : List.map Char.toUpper (m0 :: ms) = selectChars := hm
    simp only [selectChars, List.map_cons, List.cons.injEq] at hm'
    exact hc (h.1 ▸ hm'.1)

/-- C4: SELECT-only gate.  Whenever the sql argument, after trimming and
case-insensitive comparison, does not begin with SELECT, the query
operation (run with a configuration and a healthy pool) fails with
InvalidParams; the input select * from users passes the gate and executes,
and DROP TABLE users is rejected with InvalidParams. -/
theorem query_select_gate :
    (∀ (o : Oracle) (s : HState) (args : ToolArgs) (c : DatabaseConfig) (p : Nat),
      s.config = some c → s.pool = some p →
      ¬ StartsWithSelectSpec (args.sql.getD "") →
      ∃ e, (handleQuery o s args).2.1 = .error e ∧
        e.code = ErrorCode.invalidParams) ∧
    ((handleQuery oracleOk readyState { sql := some "select * from users" }).2.1
      = .ok ⟨"[]"⟩) ∧
    ((handleQuery oracleOk readyState { sql := some "DROP TABLE users" }).2.1
      = .error ⟨ErrorCode.invalidParams,
          "Only SELECT queries are allowed with query tool"⟩) := by
  refine ⟨?_, by decide, by decide⟩
  intro o s args c p hcfg hpool hspec
  have hens : ensureConnectionS o s = (s, .ok (), []) := by
    simp [ensureConnectionS, hcfg, hpool]
  cases htr : truthyStr args.sql with
  | false =>
    simp only [handleQuery, hens, htr, Bool.not_false, if_true]
    exact ⟨_, rfl, rfl⟩
  | true =>
    have hg : selectGate (args.sql.getD "") = false := by
      cases hgb : selectGate (args.sql.getD "") with
      | false => rfl
      | true => exact absurd ((selectGate_iff _).mp hgb) hspec
    simp only [handleQuery, hens, htr, hg, Bool.not_true, Bool.not_false,
      if_false, if_true]
    exact ⟨_, rfl, rfl⟩

/-- Witness for C4: the gate theorem applied to DROP TABLE users on a
ready state. -/
theorem query_select_gate_witness :
    ∃ e, (handleQuery oracleOk readyState
        { sql := some "DROP TABLE users" }).2.1 = .error e ∧
      e.code = ErrorCode.invalidParams :=
  query_select_gate.1 oracleOk readyState { sql := some "DROP TABLE users" }
    cfg0 0 rfl rfl
    (@not_select_of_head "DROP TABLE users" 'D' ("ROP TABLE users".data)
      (by decide) (by decide))

/-- C5 counterexample: the input SELECT 1;DROP contains a semicolon
followed by DROP (so the claim says the guard must return false), yet
`validateSqlQuery` accepts it, because the source regex also demands a
whitespace character after the keyword. -/
theorem validate_denylist_cex :
    ¬ (validateSqlQuery "SELECT 1;DROP" = false ↔
        SpecDangerous "SELECT 1;DROP") := by
  intro h
  have hs : SpecDangerous "SELECT 1;DROP" :=
    ⟨"SELECT 1".data, ";DROP".data, by decide,
      Or.inl ⟨[], "DROP".data, [], by decide,
        fun c hc => absurd hc (List.not_mem_nil c), rfl⟩⟩
  exact absurd (h.mpr hs) (by decide)

/-- C5 (amended): `validateSqlQuery` is a pure function of its input that
returns false exactly when the input contains, case-insensitively, a
semicolon followed by optional whitespace then DROP, DELETE, UPDATE or
INSERT followed by one whitespace character, or UNION then whitespace then
SELECT, or the comment opener -- or slash-star, or the token xp_cmdshell;
in particular it rejects the two example injections and accepts the
parameterized SELECT example. -/
theorem validate_denylist :
    (∀ s : String, validateSqlQuery s = false ↔ AmendedDangerous s) ∧
    validateSqlQuery "SELECT * FROM x; DROP TABLE x" = false ∧
    validateSqlQuery "SELECT 1 UNION SELECT password FROM users" = false ∧
    validateSqlQuery "SELECT id, name FROM users WHERE id = ?" = true :=
  ⟨validateSqlQuery_false_iff, by decide, by decide, by decide⟩
/-- C6: Auto-connect error swallowing.  When a configuration exists, the
connected flag is false and the tool is not connect_db, the coordinator
runs `ensureConnection` before dispatch and then dispatches on the
resulting state unconditionally: the call equals dispatching the tool on
the post-auto-connect state, its result is exactly the dispatched
operation's own result (the auto-connect outcome, failure included, is
discarded), and the auto-connect trace precedes the dispatch trace. -/
theorem auto_connect_swallows :
    ∀ (o : Oracle) (s : HState) (name : String) (args : ToolArgs),
      s.config.isSome = true → s.isConnected = false → name ≠ "connect_db" →
      handleCallTool o s name args =
        ({ (dispatchTool o (ensureConnectionS o
              { s with activeConnections := s.activeConnections + 1 }).1
              name args).1 with
            activeConnections := (dispatchTool o (ensureConnectionS o
              { s with activeConnections := s.activeConnections + 1 }).1
              name args).1.activeConnections - 1 },
         (dispatchTool o (ensureConnectionS o
           { s with activeConnections := s.activeConnections + 1 }).1
           name args).2.1,
         (ensureConnectionS o
             { s with activeConnections := s.activeConnections + 1 }).2.2 ++
           (dispatchTool o (ensureConnectionS o
             { s with activeConnections := s.activeConnections + 1 }).1
             name args).2.2) := by
  intro o s name args hconf hic hname
  have hd : decide (name = "connect_db") = false := decide_eq_false hname
  simp only [handleCallTool, preDispatchState, hconf, hic, hd, Bool.not_false,
    Bool.and_true, Bool.true_and, if_true]

/-- Witness for C6: with every probe failing, a list_tables call on a
configured, unconnected state swallows the auto-connect failure (attempt
0) and surfaces the operation's own connect failure (attempt 1). -/
theorem auto_connect_swallows_witness :
    (handleCallTool oracleDown emptyState "list_tables" {} =
      ({ (dispatchTool oracleDown (ensureConnectionS oracleDown
            { emptyState with
                activeConnections := emptyState.activeConnections + 1 }).1
            "list_tables" {}).1 with
          activeConnections := (dispatchTool oracleDown (ensureConnectionS oracleDown
            { emptyState with
                activeConnections := emptyState.activeConnections + 1 }).1
            "list_tables" {}).1.activeConnections - 1 },
       (dispatchTool oracleDown (ensureConnectionS oracleDown
         { emptyState with
             activeConnections := emptyState.activeConnections + 1 }).1
         "list_tables" {}).2.1,
       (ensureConnectionS oracleDown
           { emptyState with
               activeConnections := emptyState.activeConnections + 1 }).2.2 ++
         (dispatchTool oracleDown (ensureConnectionS oracleDown
           { emptyState with
               activeConnections := emptyState.activeConnections + 1 }).1
           "list_tables" {}).2.2)) ∧
    (ensureConnectionS oracleDown
        { emptyState with
            activeConnections := emptyState.activeConnections + 1 }).2.1
      = .error (connectFailErr "down0") ∧
    (handleCallTool oracleDown emptyState "list_tables" {}).2.1
      = .error (connectFailErr "down1") :=
  ⟨auto_connect_swallows oracleDown emptyState "list_tables" {} rfl rfl
    (by decide), by decide, by decide⟩

/-- C7: connect_db reconfiguration order and result.  With all four
required fields present and a pool in place, the trace closes the old pool
first, installs the new configuration second and only then starts the
connection attempt; on probe success the call returns the text payload
Successfully connected to database, and on probe failure it raises an
InternalError whose message ends with the underlying cause. -/
theorem connect_db_reconfigures :
    ∀ (o : Oracle) (s : HState) (args : ToolArgs) (p : Nat),
      s.pool = some p →
      truthyStr args.host = true → truthyStr args.user = true →
      args.password.isNone = false → truthyStr args.database = true →
      ∃ cfg : DatabaseConfig,
        (handleConnectDb o s args).2.2 =
          [SrvAction.poolEnd p, SrvAction.installConfig cfg,
           SrvAction.connectAttempt s.attempts] ∧
        cfg.host = args.host.getD "" ∧ cfg.user = args.user.getD "" ∧
        cfg.password = args.password.getD "" ∧
        cfg.database = args.database.getD "" ∧
        (o.probe s.attempts = none →
          (handleConnectDb o s args).2.1
            = .ok ⟨"Successfully connected to database"⟩) ∧
        (∀ m, o.probe s.attempts = some m →
          ∃ e, (handleConnectDb o s args).2.1 = .error e ∧
            e.code = ErrorCode.internalError ∧
            ∃ pre, e.message = pre ++ m) := by
  intro o s args p hp hh hu hpw hd
  have hcond : (!truthyStr args.host || !truthyStr args.user ||
      args.password.isNone || !truthyStr args.database) = false := by
    rw [hh, hu, hpw, hd]
    rfl
  refine ⟨{ host := args.host.getD "", user := args.user.getD "",
            password := args.password.getD "",
            database := args.database.getD "",
            port := some (match args.port with
                          | some q => if q = 0 then 3306 else q
                          | none => 3306),
            socketPath := if truthyStr args.socketPath then args.socketPath
                          else none },
          ?_, rfl, rfl, rfl, rfl, ?_, ?_⟩
  · cases ho : o.probe s.attempts with
    | none => simp [handleConnectDb, hcond, hp, ensureConnectionS, ho]
    | some m => simp [handleConnectDb, hcond, hp, ensureConnectionS, ho]
  · intro ho
    simp [handleConnectDb, hcond, hp, ensureConnectionS, ho]
  · intro m hm
    simp only [handleConnectDb, hcond, Bool.false_eq_true, if_false, hp,
      ensureConnectionS, hm]
    refine ⟨_, rfl, rfl,
      "Failed to connect to database: " ++ "Failed to connect to database: ",
      ?_⟩
    show "Failed to connect to database: " ++
        ("Failed to connect to database: " ++ m) =
      "Failed to connect to database: " ++ "Failed to connect to database: " ++ m
    rw [← String.append_assoc]
/-- Witness for C7: a concrete reconfiguration over an existing pool 0
with an all-success oracle. -/
theorem connect_db_reconfigures_witness :
    ∃ cfg : DatabaseConfig,
      (handleConnectDb oracleOk readyState
          { host := some "h2", user := some "u2", password := some "",
            database := some "d2" }).2.2 =
        [SrvAction.poolEnd 0, SrvAction.installConfig cfg,
         SrvAction.connectAttempt readyState.attempts] ∧
      cfg.host = (some "h2" : Option String).getD "" ∧
      cfg.user = (some "u2" : Option String).getD "" ∧
      cfg.password = (some "" : Option String).getD "" ∧
      cfg.database = (some "d2" : Option String).getD "" ∧
      (oracleOk.probe readyState.attempts = none →
        (handleConnectDb oracleOk readyState
            { host := some "h2", user := some "u2", password := some "",
              database := some "d2" }).2.1
          = .ok ⟨"Successfully connected to database"⟩) ∧
      (∀ m, oracleOk.probe readyState.attempts = some m →
        ∃ e, (handleConnectDb oracleOk readyState
            { host := some "h2", user := some "u2", password := some "",
              database := some "d2" }).2.1 = .error e ∧
          e.code = ErrorCode.internalError ∧
          ∃ pre, e.message = pre ++ m) :=
  connect_db_reconfigures oracleOk readyState
    { host := some "h2", user := some "u2", password := some "",
      database := some "d2" } 0 rfl (by decide) (by decide) rfl (by decide)

/-- C8 counterexample: for the accepted call with sql equal to a
SELECT statement carrying a leading space, the statement executed against
the pool is the original untrimmed input, which differs from the trimmed
input the claim names. -/
theorem query_exec_trimmed_cex :
    (handleQuery oracleOk readyState { sql := some " SELECT 1" }).2.2
      = [SrvAction.sqlExec " SELECT 1" []] ∧
    jsTrimStr " SELECT 1" = "SELECT 1" ∧
    (" SELECT 1" : String) ≠ "SELECT 1" :=
  ⟨by decide, by decide, by decide⟩

/-- C8 (amended): for every accepted query call, the statement executed
against the pool is the original, untrimmed input string (the trimmed copy
is used only for validation), executed with the caller-supplied positional
parameters, defaulting to the empty list when params is absent. -/
theorem query_executes_raw :
    ∀ (o : Oracle) (s : HState) (args : ToolArgs) (c : DatabaseConfig) (p : Nat),
      s.config = some c → s.pool = some p →
      truthyStr args.sql = true →
      selectGate (args.sql.getD "") = true →
      validateSqlQuery (jsTrimStr (args.sql.getD "")) = true →
      (handleQuery o s args).2.2 =
        [SrvAction.sqlExec (args.sql.getD "") (args.params.getD [])] := by
  intro o s args c p hcfg hpool htr hgate hval
  have hens : ensureConnectionS o s = (s, .ok (), []) := by
    simp [ensureConnectionS, hcfg, hpool]
  cases hex : o.exec (args.sql.getD "") (args.params.getD []) with
  | ok rows => simp [handleQuery, hens, htr, hgate, hval, hex]
  | error m => simp [handleQuery, hens, htr, hgate, hval, hex]

/-- Witness for C8: the amended statement at the concrete leading-space
input with one explicit parameter. -/
theorem query_executes_raw_witness :
    (handleQuery oracleOk readyState
        { sql := some " SELECT 1", params := some [JsVal.num 1] }).2.2 =
      [SrvAction.sqlExec ((some " SELECT 1" : Option String).getD "")
        ((some [JsVal.num 1] : Option (List JsVal)).getD [])] :=
  query_executes_raw oracleOk readyState
    { sql := some " SELECT 1", params := some [JsVal.num 1] } cfg0 0 rfl rfl
    (by decide) (by decide) (by decide)

/-- C9: describe_table parameterization.  With a configuration and a
healthy pool, a missing (falsy) table argument raises InvalidParams, and
otherwise the executed statement is the fixed template DESCRIBE ?? with
the table name passed as the single identifier parameter, for every table
name (the statement text never depends on the name). -/
theorem describe_table_param :
    ∀ (o : Oracle) (s : HState) (args : ToolArgs) (c : DatabaseConfig) (p : Nat),
      s.config = some c → s.pool = some p →
      (truthyStr args.table = false →
        (handleDescribeTable o s args).2.1
          = .error ⟨ErrorCode.invalidParams, "Table name is required"⟩) ∧
      (truthyStr args.table = true →
        (handleDescribeTable o s args).2.2
          = [SrvAction.sqlExec "DESCRIBE ??"
              [JsVal.str (args.table.getD "")]]) := by
  intro o s args c p hcfg hpool
  have hens : ensureConnectionS o s = (s, .ok (), []) := by
    simp [ensureConnectionS, hcfg, hpool]
  constructor
  · intro htf
    simp [handleDescribeTable, hens, htf]
  · intro htt
    cases hex : o.exec "DESCRIBE ??" [JsVal.str (args.table.getD "")] with
    | ok rows => simp [handleDescribeTable, hens, htt, hex]
    | error m => simp [handleDescribeTable, hens, htt, hex]

/-- Witness for C9: the missing-table and the present-table cases at
concrete inputs. -/
theorem describe_table_param_witness :
    ((handleDescribeTable oracleOk readyState { table := none }).2.1
      = .error ⟨ErrorCode.invalidParams, "Table name is required"⟩) ∧
    ((handleDescribeTable oracleOk readyState { table := some "users" }).2.2
      = [SrvAction.sqlExec "DESCRIBE ??"
          [JsVal.str ((some "users" : Option String).getD "")]]) :=
  ⟨(describe_table_param oracleOk readyState { table := none } cfg0 0
      rfl rfl).1 rfl,
   (describe_table_param oracleOk readyState { table := some "users" } cfg0 0
      rfl rfl).2 (by decide)⟩
/-- C10: Empty-string password edge case.  connect_db accepts an
empty-string password (no InvalidParams can arise from it when the other
fields are truthy), while an empty-string host, user or database raises
InvalidParams; identically, the environment-sourced configuration is
populated with an empty MYSQL_PASSWORD but absent with an empty
MYSQL_HOST, MYSQL_USER or MYSQL_DATABASE. -/
theorem empty_password_asymmetry :
    (∀ (o : Oracle) (s : HState) (args : ToolArgs),
      truthyStr args.host = true → truthyStr args.user = true →
      args.password = some "" → truthyStr args.database = true →
      ∀ e, (handleConnectDb o s args).2.1 = .error e →
        e.code ≠ ErrorCode.invalidParams) ∧
    (∀ (o : Oracle) (s : HState) (args : ToolArgs),
      args.host = some "" →
      (handleConnectDb o s args).2.1
        = .error ⟨ErrorCode.invalidParams,
            "Missing required database configuration parameters"⟩) ∧
    (∀ (o : Oracle) (s : HState) (args : ToolArgs),
      args.user = some "" →
      (handleConnectDb o s args).2.1
        = .error ⟨ErrorCode.invalidParams,
            "Missing required database configuration parameters"⟩) ∧
    (∀ (o : Oracle) (s : HState) (args : ToolArgs),
      args.database = some "" →
      (handleConnectDb o s args).2.1
        = .error ⟨ErrorCode.invalidParams,
            "Missing required database configuration parameters"⟩) ∧
    (∀ e : Env, truthyStr e.host = true → truthyStr e.user = true →
      e.password = some "" → truthyStr e.database = true →
      (initConfig e).isSome = true) ∧
    (∀ e : Env, e.host = some "" → initConfig e = none) ∧
    (∀ e : Env, e.user = some "" → initConfig e = none) ∧
    (∀ e : Env, e.database = some "" → initConfig e = none) := by
  refine ⟨?_, ?_, ?_, ?_, ?_, ?_, ?_, ?_⟩
  · intro o s args hh hu hpw hd e he
    have hpn : args.password.isNone = false := by rw [hpw]; rfl
    have hcond : (!truthyStr args.host || !truthyStr args.user ||
        args.password.isNone || !truthyStr args.database) = false := by
      rw [hh, hu, hpn, hd]
      rfl
    cases hp : s.pool with
    | some p =>
      cases ho : o.probe s.attempts with
      | none => simp [handleConnectDb, hcond, hp, ensureConnectionS, ho] at he
      | some m =>
        simp [handleConnectDb, hcond, hp, ensureConnectionS, ho] at he
        rw [← he]
        intro hx
        cases hx
    | none =>
      cases ho : o.probe s.attempts with
      | none => simp [handleConnectDb, hcond, hp, ensureConnectionS, ho] at he
      | some m =>
        simp [handleConnectDb, hcond, hp, ensureConnectionS, ho] at he
        rw [← he]
        intro hx
        cases hx
  · intro o s args hhost
    have hft : truthyStr args.host = false := by rw [hhost]; rfl
    simp [handleConnectDb, hft]
  · intro o s args huser
    have hft : truthyStr args.user = false := by rw [huser]; rfl
    simp [handleConnectDb, hft]
  · intro o s args hdb
    have hft : truthyStr args.database = false := by rw [hdb]; rfl
    simp [handleConnectDb, hft]
  · intro e hh hu hpw hd
    have hpn : e.password.isNone = false := by rw [hpw]; rfl
    simp [initConfig, hh, hu, hpn, hd]
  · intro e hhost
    have hft : truthyStr e.host = false := by rw [hhost]; rfl
    simp [initConfig, hft]
  · intro e huser
    have hft : truthyStr e.user = false := by rw [huser]; rfl
    simp [initConfig, hft]
  · intro e hdb
    have hft : truthyStr e.database = false := by rw [hdb]; rfl
    simp [initConfig, hft]

/-- Witness for C10: concrete connect_db calls with an empty password
(accepted, failures are InternalError only) and an empty host (rejected
with InvalidParams), and the matching environment cases. -/
theorem empty_password_asymmetry_witness :
    ((⟨ErrorCode.internalError,
        "Failed to connect to database: Failed to connect to database: down0"⟩
      : McpError).code ≠ ErrorCode.invalidParams) ∧
    ((handleConnectDb oracleOk emptyState
        { host := some "", user := some "u", password := some "p",
          database := some "d" }).2.1
      = .error ⟨ErrorCode.invalidParams,
          "Missing required database configuration parameters"⟩) ∧
    ((initConfig { host := some "h", user := some "u",
                   password := some "",
                   database := some "d", port := none,
                   socket := none }).isSome = true) ∧
    (initConfig { host := some "", user := some "u",
                  password := some "p",
                  database := some "d", port := none,
                  socket := none } = none) := by
  refine ⟨?_, ?_, ?_, ?_⟩
  · exact empty_password_asymmetry.1 oracleDown emptyState
      { host := some "h", user := some "u", password := some "",
        database := some "d" } (by decide) (by decide) rfl (by decide) _
      (by decide)
  · exact empty_password_asymmetry.2.1 oracleOk emptyState
      { host := some "", user := some "u", password := some "p",
        database := some "d" } rfl
  · exact empty_password_asymmetry.2.2.2.2.1
      { host := some "h", user := some "u", password := some "",
          database := some "d", port := none, socket := none }
      (by decide) (by decide) rfl (by decide)
  · exact empty_password_asymmetry.2.2.2.2.2.1
      { host := some "", user := some "u", password := some "p",
          database := some "d", port := none, socket := none } rfl
